import Mathlib

/-!
Verification development for the sentinell-autonomous-supply-chain repository.

The repository snapshot contains one source file, the Next.js dashboard
`frontend/src/app/page.tsx`.  Its pure logic (the two click handlers split at
their awaited request, the button-disabling expressions and the risk badge
rendering) is embedded below as Lean functions; the asynchronous request is
explicit: each handler has a `Start` function (everything before the request
is issued) and an `End` function (consuming the request's result).  The
backend described by the documentation (Supervisor merge rule, Procurement
workflow with its approval gate, approval resolution) is not in the snapshot,
so those parts are modelled from the specification text, as marked on each
definition.
-/

namespace Sentinell

/-- Risk levels of the data model: enum {LOW, MEDIUM, CRITICAL}. -/
inductive RiskLevel
  | LOW
  | MEDIUM
  | CRITICAL
deriving DecidableEq, Repr

/-- Modelled from the spec: the `ScanResponse` type imported by the dashboard
from `@/lib/api` is not in the snapshot; per the data model a RiskReport is
{region, risk_level, affected_parts, summary, timestamp}.  The dashboard reads
`risk_level`, `timestamp` and `summary` from it. -/
structure ScanResponse where
  region : String
  risk_level : RiskLevel
  affected_parts : List String
  summary : String
  timestamp : String
deriving DecidableEq, Repr

/-- The purchase response as the dashboard consumes it: `handlePurchase`
reads exactly the field `summary` of the awaited result (`res.summary`). -/
structure PurchaseResponse where
  summary : String
deriving DecidableEq, Repr

/-- Result of an awaited api call as seen by the `try`/`catch` in the
handlers: either the parsed value, or a thrown error (payload unused). -/
inductive ApiResult (α : Type)
  | ok (value : α)
  | error
deriving DecidableEq, Repr

/-- The dashboard's React state: `useState` hooks region, loading,
scanResult, orderStatus of `page.tsx`. -/
structure DashState where
  region : String
  loading : Bool
  scanResult : Option ScanResponse
  orderStatus : Option String
deriving DecidableEq, Repr

/-- Initial dashboard state: region "Taiwan", not loading, no scan result,
no order status. -/
def initDash : DashState :=
  { region := "Taiwan", loading := false, scanResult := none, orderStatus := none }

/-- Alert text of `handleScan`'s catch branch. -/
def scanFailAlert : String :=
  "Failed to connect to Sentinell Backend. Please check your .env.local file."

/-- Alert text of `handlePurchase`'s catch branch. -/
def purchaseFailAlert : String :=
  "Purchase failed. Check console for details."

/-- The part of `handleScan` before the awaited request:
setLoading(true); setScanResult(null); setOrderStatus(null). -/
def handleScanStart (s : DashState) : DashState :=
  { s with loading := true, scanResult := none, orderStatus := none }

/-- The part of `handleScan` after the awaited request: on success
setScanResult(data); on failure alert(...); finally setLoading(false).
Returns the new state together with the alerts raised. -/
def handleScanEnd (s : DashState) : ApiResult ScanResponse → DashState × List String
  | .ok data => ({ s with scanResult := some data, loading := false }, [])
  | .error => ({ s with loading := false }, [scanFailAlert])

/-- The part of `handlePurchase` before the awaited request: if the confirm
dialog is declined, return immediately; otherwise setLoading(true) and issue
`api.purchaseParts("Logic-Core-CPU", 50)`.  Returns the new state and the
(part_id, quantity) request sent, if any. -/
def handlePurchaseStart (confirmed : Bool) (s : DashState) :
    DashState × Option (String × Nat) :=
  if confirmed then ({ s with loading := true }, some ("Logic-Core-CPU", 50))
  else (s, none)

/-- The part of `handlePurchase` after the awaited request: on success
setOrderStatus(res.summary); on failure alert(...); finally
setLoading(false). -/
def handlePurchaseEnd (s : DashState) : ApiResult PurchaseResponse → DashState × List String
  | .ok res => ({ s with orderStatus := some res.summary, loading := false }, [])
  | .error => ({ s with loading := false }, [purchaseFailAlert])

/-- Disabled attribute of the Run Risk Analysis button: `disabled={loading}`. -/
def scanButtonDisabled (s : DashState) : Bool := s.loading

/-- Disabled attribute of the Replenish Inventory button:
`disabled={loading || !scanResult}`. -/
def purchaseButtonDisabled (s : DashState) : Bool := s.loading || s.scanResult.isNone

/-- The field names `handlePurchase` reads off the purchase response: it
reads `res.summary` and nothing else. -/
def handlePurchaseFieldsRead : List String := ["summary"]

/-- Field names of Order in the data model. -/
def orderFields : List String :=
  ["order_id", "supplier_id", "part_id", "quantity", "total_cost", "status"]

/-- Field names of ApprovalRequest in the data model. -/
def approvalRequestFields : List String :=
  ["order_draft", "reason", "requested_at", "resolution"]

/-- Badge class of the scan-result pill when risk_level is CRITICAL. -/
def criticalBadgeClass : String := "bg-red-950/50 border-red-500 text-red-400"

/-- Badge class of the scan-result pill when risk_level is MEDIUM. -/
def mediumBadgeClass : String := "bg-yellow-950/50 border-yellow-500 text-yellow-400"

/-- Badge class of the scan-result pill in the remaining case. -/
def lowBadgeClass : String := "bg-green-950/50 border-green-500 text-green-400"

/-- String form of a risk level as it appears in the response JSON and in
the rendered badge text. -/
def RiskLevel.label : RiskLevel → String
  | .LOW => "LOW"
  | .MEDIUM => "MEDIUM"
  | .CRITICAL => "CRITICAL"

/-- The conditional class expression of the scan-result badge:
risk_level === CRITICAL chooses the red classes, else MEDIUM the yellow
ones, else the green ones. -/
def riskBadgeClass (risk_level : String) : String :=
  if risk_level = "CRITICAL" then criticalBadgeClass
  else if risk_level = "MEDIUM" then mediumBadgeClass
  else lowBadgeClass

/-- What the scan-result card renders. -/
structure ScanResultView where
  badgeClass : String
  badgeText : String
  timeText : String
  summaryText : String
deriving DecidableEq, Repr

/-- The scan-result block of the feed: badge class and text from
risk_level, the timestamp, and the summary in the pre block. -/
def renderScanResult (r : ScanResponse) : ScanResultView :=
  { badgeClass := riskBadgeClass r.risk_level.label
  , badgeText := r.risk_level.label ++ " RISK DETECTED"
  , timeText := r.timestamp
  , summaryText := r.summary }

/-- C1 counterexample: `handlePurchase` reads the field `summary`, and
`summary` is a field neither of Order nor of ApprovalRequest as the data
model defines them. -/
theorem purchase_field_read_counterexample :
    "summary" ∈ handlePurchaseFieldsRead
    ∧ "summary" ∉ orderFields
    ∧ "summary" ∉ approvalRequestFields := by
  refine ⟨?_, ?_, ?_⟩ <;> decide

/-- C1 (amended): every field the dashboard's `handlePurchase` reads off the
purchase response is the field `summary`, which is not a field of Order and
not a field of ApprovalRequest as defined in the data model. -/
theorem purchase_field_read_amended :
    ∀ f ∈ handlePurchaseFieldsRead,
      f = "summary" ∧ f ∉ orderFields ∧ f ∉ approvalRequestFields := by
  intro f hf
  have hsum : f = "summary" := by
    simpa [handlePurchaseFieldsRead] using hf
  subst hsum
  exact ⟨rfl, by decide, by decide⟩

/-- C1 witness: the amended statement at the concrete field `summary`. -/
theorem purchase_field_read_amended_witness :
    "summary" = "summary"
    ∧ "summary" ∉ orderFields
    ∧ "summary" ∉ approvalRequestFields :=
  purchase_field_read_amended "summary" (by decide)

/-- C2: every run of `handlePurchase` that sends a request sends part_id
"Logic-Core-CPU" and quantity 50. -/
theorem handlePurchase_request_args (confirmed : Bool) (s : DashState)
    (req : String × Nat)
    (h : (handlePurchaseStart confirmed s).2 = some req) :
    req = ("Logic-Core-CPU", 50) := by
  cases confirmed with
  | true =>
      simp [handlePurchaseStart] at h
      exact h.symm
  | false =>
      simp [handlePurchaseStart] at h

/-- C2 witness: the confirmed run from the initial state sends exactly
("Logic-Core-CPU", 50). -/
theorem handlePurchase_request_args_witness :
    ("Logic-Core-CPU", (50 : Nat)) = ("Logic-Core-CPU", 50) :=
  handlePurchase_request_args true initDash ("Logic-Core-CPU", 50) rfl

/-- C9: if the confirm dialog is declined, `handlePurchase` issues no
request and leaves the whole dashboard state (loading, scanResult,
orderStatus, region) unchanged; and a request is issued exactly when the
dialog is confirmed. -/
theorem handlePurchase_confirm_gate :
    (∀ s : DashState, handlePurchaseStart false s = (s, none))
    ∧ (∀ (confirmed : Bool) (s : DashState),
        ((handlePurchaseStart confirmed s).2).isSome = confirmed) := by
  constructor
  · intro s
    rfl
  · intro confirmed s
    cases confirmed <;> rfl

/-- C6: a run of `handleScan` holds no scan result once started; if the
request fails, the scan result stays null, the failure alert is raised and
the loading flag is reset; if it succeeds, the complete returned report is
stored for display (and loading is reset with no alert). -/
theorem handleScan_outcomes (s : DashState) (data : ScanResponse) :
    (handleScanStart s).scanResult = none
    ∧ handleScanEnd (handleScanStart s) .error
        = ({ handleScanStart s with loading := false }, [scanFailAlert])
    ∧ (handleScanEnd (handleScanStart s) .error).1.scanResult = none
    ∧ (handleScanEnd (handleScanStart s) .error).1.loading = false
    ∧ handleScanEnd (handleScanStart s) (.ok data)
        = ({ handleScanStart s with scanResult := some data, loading := false }, [])
    ∧ (handleScanEnd (handleScanStart s) (.ok data)).1.scanResult = some data := by
  refine ⟨rfl, rfl, rfl, rfl, rfl, rfl⟩

/-- C7: every scan response carries a risk_level that is one of LOW, MEDIUM,
CRITICAL together with a summary string and a timestamp, both of which the
dashboard displays verbatim; the badge rendering distinguishes CRITICAL and
MEDIUM explicitly with distinct classes, and every remaining risk level is
LOW and gets the LOW (green) class. -/
theorem riskReport_rendering (r : ScanResponse) :
    (r.risk_level = .LOW ∨ r.risk_level = .MEDIUM ∨ r.risk_level = .CRITICAL)
    ∧ (renderScanResult r).summaryText = r.summary
    ∧ (renderScanResult r).timeText = r.timestamp
    ∧ riskBadgeClass RiskLevel.CRITICAL.label = criticalBadgeClass
    ∧ riskBadgeClass RiskLevel.MEDIUM.label = mediumBadgeClass
    ∧ riskBadgeClass RiskLevel.LOW.label = lowBadgeClass
    ∧ criticalBadgeClass ≠ mediumBadgeClass
    ∧ criticalBadgeClass ≠ lowBadgeClass
    ∧ mediumBadgeClass ≠ lowBadgeClass
    ∧ (∀ rl : RiskLevel,
        rl = .CRITICAL ∨ rl = .MEDIUM
        ∨ (rl = .LOW ∧ riskBadgeClass rl.label = lowBadgeClass)) := by
  refine ⟨?_, rfl, rfl, by decide, by decide, by decide, by decide, by decide, by decide, ?_⟩
  · cases h : r.risk_level
    · exact Or.inl rfl
    · exact Or.inr (Or.inl rfl)
    · exact Or.inr (Or.inr rfl)
  · intro rl
    cases rl
    · exact Or.inr (Or.inr ⟨rfl, by decide⟩)
    · exact Or.inr (Or.inl rfl)
    · exact Or.inl rfl

/-- Kinds of in-flight api requests the dashboard can have. -/
inductive ReqKind
  | scan
  | purchase
deriving DecidableEq, Repr

/-- Events of the dashboard: button clicks (no-ops while the button is
disabled), arrival of a response to an in-flight request, and region
selection. -/
inductive UiEvent
  | scanClick
  | scanResp (r : ApiResult ScanResponse)
  | purchaseClick (confirmed : Bool)
  | purchaseResp (r : ApiResult PurchaseResponse)
  | selectRegion (reg : String)
deriving DecidableEq, Repr

/-- Dashboard state plus the in-flight requests and two history flags:
whether a scan response has ever delivered a report, and whether a purchase
request has ever been sent. -/
structure UiState where
  dash : DashState
  inFlight : List ReqKind
  scanReturned : Bool
  purchaseSent : Bool
deriving DecidableEq, Repr

/-- Initial dashboard: no request in flight, nothing returned or sent. -/
def initUi : UiState :=
  { dash := initDash, inFlight := [], scanReturned := false, purchaseSent := false }

/-- One dashboard step.  Clicks on a disabled button do nothing; a response
event only applies when the matching request is in flight. -/
def uiStep (u : UiState) : UiEvent → UiState
  | .scanClick =>
      if scanButtonDisabled u.dash then u
      else { u with dash := handleScanStart u.dash, inFlight := u.inFlight ++ [.scan] }
  | .scanResp r =>
      if ReqKind.scan ∈ u.inFlight then
        { u with dash := (handleScanEnd u.dash r).1
               , inFlight := u.inFlight.erase .scan
               , scanReturned := match r with
                   | .ok _ => true
                   | .error => u.scanReturned }
      else u
  | .purchaseClick confirmed =>
      if purchaseButtonDisabled u.dash then u
      else
        { u with dash := (handlePurchaseStart confirmed u.dash).1
               , inFlight :=
                   if ((handlePurchaseStart confirmed u.dash).2).isSome
                   then u.inFlight ++ [.purchase] else u.inFlight
               , purchaseSent :=
                   u.purchaseSent || ((handlePurchaseStart confirmed u.dash).2).isSome }
  | .purchaseResp r =>
      if ReqKind.purchase ∈ u.inFlight then
        { u with dash := (handlePurchaseEnd u.dash r).1
               , inFlight := u.inFlight.erase .purchase }
      else u
  | .selectRegion reg => { u with dash := { u.dash with region := reg } }

/-- Run of the dashboard on a list of events from the initial state. -/
def uiRun (evs : List UiEvent) : UiState := evs.foldl uiStep initUi

/-- Invariant of the dashboard machine: loading mirrors having a request in
flight; at most one request is in flight; a displayed scan result implies a
scan returned; a purchase was only ever sent after a scan returned; while a
scan is in flight nothing stale is displayed. -/
def UiInv (u : UiState) : Prop :=
  u.dash.loading = !u.inFlight.isEmpty
  ∧ u.inFlight.length ≤ 1
  ∧ (u.dash.scanResult.isSome = true → u.scanReturned = true)
  ∧ (u.purchaseSent = true → u.scanReturned = true)
  ∧ (ReqKind.scan ∈ u.inFlight →
      u.dash.scanResult = none ∧ u.dash.orderStatus = none)

theorem short_of_mem_le_one {α : Type} (l : List α) (x : α)
    (hlen : l.length ≤ 1) (hx : x ∈ l) : l = [x] := by
  match l, hx with
  | [a], hx =>
      have : x = a := by simpa using hx
      simp [this]
  | a :: b :: t, _ =>
      simp [List.length_cons] at hlen

theorem uiInv_init : UiInv initUi := by
  refine ⟨rfl, by decide, ?_, ?_, ?_⟩ <;> intro h <;> simp [initUi, initDash] at h

theorem inFlight_nil_of_not_loading (u : UiState)
    (hload : u.dash.loading = !u.inFlight.isEmpty)
    (hl : u.dash.loading = false) : u.inFlight = [] := by
  rw [hl] at hload
  have hempty : u.inFlight.isEmpty = true := by
    cases hemp : u.inFlight.isEmpty
    · rw [hemp] at hload
      simp at hload
    · rfl
  simpa [List.isEmpty_iff] using hempty

theorem uiInv_step (u : UiState) (e : UiEvent) (hu : UiInv u) :
    UiInv (uiStep u e) := by
  obtain ⟨hload, hlen, hscan, hpur, hstale⟩ := hu
  cases e with
  | scanClick =>
      by_cases hdis : scanButtonDisabled u.dash
      · have heq : uiStep u .scanClick = u := by simp [uiStep, hdis]
        rw [heq]
        exact ⟨hload, hlen, hscan, hpur, hstale⟩
      · have hl : u.dash.loading = false := by
          simpa [scanButtonDisabled] using hdis
        have hnil : u.inFlight = [] := inFlight_nil_of_not_loading u hload hl
        simp only [uiStep, hdis, if_neg, Bool.false_eq_true, not_false_eq_true]
        refine ⟨?_, ?_, ?_, hpur, ?_⟩
        · simp [handleScanStart, hnil]
        · simp [hnil]
        · simp [handleScanStart]
        · intro hmem
          exact ⟨rfl, rfl⟩
  | scanResp r =>
      by_cases hmem : ReqKind.scan ∈ u.inFlight
      · have hone : u.inFlight = [ReqKind.scan] := short_of_mem_le_one _ _ hlen hmem
        have hres : u.dash.scanResult = none := (hstale hmem).1
        cases r with
        | ok data =>
            simp only [uiStep, hmem, if_pos]
            refine ⟨?_, ?_, ?_, ?_, ?_⟩
            · simp [handleScanEnd, hone, List.erase]
            · simp [hone, List.erase]
            · intro h
              rfl
            · intro h
              rfl
            · intro h
              simp [hone, List.erase] at h
        | error =>
            simp only [uiStep, hmem, if_pos]
            refine ⟨?_, ?_, ?_, ?_, ?_⟩
            · simp [handleScanEnd, hone, List.erase]
            · simp [hone, List.erase]
            · intro h
              simp [handleScanEnd, hres] at h
            · exact hpur
            · intro h
              simp [hone, List.erase] at h
      · have heq : uiStep u (.scanResp r) = u := by simp [uiStep, hmem]
        rw [heq]
        exact ⟨hload, hlen, hscan, hpur, hstale⟩
  | purchaseClick confirmed =>
      by_cases hdis : purchaseButtonDisabled u.dash
      · have heq : uiStep u (.purchaseClick confirmed) = u := by simp [uiStep, hdis]
        rw [heq]
        exact ⟨hload, hlen, hscan, hpur, hstale⟩
      · have hdis2 : u.dash.loading = false ∧ ¬ u.dash.scanResult = none := by
          have h := hdis
          simp [purchaseButtonDisabled] at h
          exact h
        have hl : u.dash.loading = false := hdis2.1
        have hsome : u.dash.scanResult.isSome = true := by
          cases hres : u.dash.scanResult
          · exact absurd hres hdis2.2
          · rfl
        have hnil : u.inFlight = [] := inFlight_nil_of_not_loading u hload hl
        have hret : u.scanReturned = true := hscan hsome
        cases confirmed with
        | true =>
            simp only [uiStep, hdis, if_neg, not_false_eq_true]
            refine ⟨?_, ?_, ?_, ?_, ?_⟩
            · simp [handlePurchaseStart, hnil]
            · simp [handlePurchaseStart, hnil]
            · intro h
              simp [handlePurchaseStart, hret]
            · intro h
              simp [hret]
            · intro h
              simp [handlePurchaseStart, hnil] at h
        | false =>
            simp only [uiStep, hdis, if_neg, not_false_eq_true]
            refine ⟨?_, ?_, ?_, ?_, ?_⟩
            · simp [handlePurchaseStart, hl, hnil]
            · simpa [handlePurchaseStart] using hlen
            · intro h
              exact hscan (by simpa [handlePurchaseStart] using h)
            · intro h
              exact hpur (by simpa [handlePurchaseStart] using h)
            · intro h
              have hmem : ReqKind.scan ∈ u.inFlight := by
                simpa [handlePurchaseStart] using h
              simpa [handlePurchaseStart] using hstale hmem
  | purchaseResp r =>
      by_cases hmem : ReqKind.purchase ∈ u.inFlight
      · have hone : u.inFlight = [ReqKind.purchase] := short_of_mem_le_one _ _ hlen hmem
        cases r with
        | ok res =>
            simp only [uiStep, hmem, if_pos]
            refine ⟨?_, ?_, ?_, ?_, ?_⟩
            · simp [handlePurchaseEnd, hone, List.erase]
            · simp [hone, List.erase]
            · intro h
              exact hscan (by simpa [handlePurchaseEnd] using h)
            · exact hpur
            · intro h
              simp [hone, List.erase] at h
        | error =>
            simp only [uiStep, hmem, if_pos]
            refine ⟨?_, ?_, ?_, ?_, ?_⟩
            · simp [handlePurchaseEnd, hone, List.erase]
            · simp [hone, List.erase]
            · intro h
              exact hscan (by simpa [handlePurchaseEnd] using h)
            · exact hpur
            · intro h
              simp [hone, List.erase] at h
      · have heq : uiStep u (.purchaseResp r) = u := by simp [uiStep, hmem]
        rw [heq]
        exact ⟨hload, hlen, hscan, hpur, hstale⟩
  | selectRegion reg =>
      refine ⟨?_, hlen, ?_, hpur, ?_⟩
      · simpa [uiStep] using hload
      · intro h
        exact hscan (by simpa [uiStep] using h)
      · intro h
        have hmem : ReqKind.scan ∈ u.inFlight := by
          simpa [uiStep] using h
        simpa [uiStep] using hstale hmem

theorem uiInv_foldl (evs : List UiEvent) (u : UiState) (hu : UiInv u) :
    UiInv (evs.foldl uiStep u) := by
  induction evs generalizing u with
  | nil => exact hu
  | cons e rest ih =>
      exact ih (uiStep u e) (uiInv_step u e hu)

theorem uiInv_run (evs : List UiEvent) : UiInv (uiRun evs) :=
  uiInv_foldl evs initUi uiInv_init

/-- C8: in every rendered dashboard state, the Replenish Inventory button is
disabled exactly when a request is in flight or no scan result exists; in
every reachable dashboard state at most one request is in flight, and a
purchase request has only ever been sent after a scan response delivered a
report. -/
theorem purchase_button_gating (evs : List UiEvent) :
    (∀ s : DashState, purchaseButtonDisabled s = (s.loading || s.scanResult.isNone))
    ∧ (uiRun evs).inFlight.length ≤ 1
    ∧ ((uiRun evs).purchaseSent = true → (uiRun evs).scanReturned = true) := by
  obtain ⟨hload, hlen, hscan, hpur, hstale⟩ := uiInv_run evs
  exact ⟨fun s => rfl, hlen, hpur⟩

/-- C8 witness: in the run scan-click, scan success, confirmed purchase
click, a purchase was sent, so by the theorem a scan had returned. -/
theorem purchase_button_gating_witness :
    (uiRun [UiEvent.scanClick,
            UiEvent.scanResp (.ok { region := "Taiwan", risk_level := .CRITICAL
                                  , affected_parts := ["Logic-Core-CPU"]
                                  , summary := "s", timestamp := "t" }),
            UiEvent.purchaseClick true]).scanReturned = true :=
  (purchase_button_gating
    [UiEvent.scanClick,
     UiEvent.scanResp (.ok { region := "Taiwan", risk_level := .CRITICAL
                           , affected_parts := ["Logic-Core-CPU"]
                           , summary := "s", timestamp := "t" }),
     UiEvent.purchaseClick true]).2.2 (by decide)

/-- C10 counterexample: at the initial state, the pre-request part of
`handleScan` does not leave every state field other than scanResult and
orderStatus unchanged: it flips the loading flag. -/
theorem handleScan_frame_counterexample :
    ¬ ((handleScanStart initDash).scanResult = none
       ∧ (handleScanStart initDash).orderStatus = none
       ∧ (handleScanStart initDash).region = initDash.region
       ∧ (handleScanStart initDash).loading = initDash.loading) := by
  intro h
  have hl := h.2.2.2
  simp [handleScanStart, initDash] at hl

/-- C10 (amended): every run of `handleScan` sets the scan result and the
order status to null and the loading flag to true before issuing the
request, leaving the region unchanged; consequently, while a scan request is
in flight no stale scan result or order message is displayed. -/
theorem handleScan_clears_display (s : DashState) :
    (handleScanStart s).scanResult = none
    ∧ (handleScanStart s).orderStatus = none
    ∧ (handleScanStart s).region = s.region
    ∧ (handleScanStart s).loading = true
    ∧ (∀ evs : List UiEvent, ReqKind.scan ∈ (uiRun evs).inFlight →
        (uiRun evs).dash.scanResult = none ∧ (uiRun evs).dash.orderStatus = none) := by
  refine ⟨rfl, rfl, rfl, rfl, ?_⟩
  intro evs hmem
  obtain ⟨hload, hlen, hscan, hpur, hstale⟩ := uiInv_run evs
  exact hstale hmem

/-- C10 witness: right after a scan click the scan is in flight and nothing
stale is displayed. -/
theorem handleScan_clears_display_witness :
    (uiRun [UiEvent.scanClick]).dash.scanResult = none
    ∧ (uiRun [UiEvent.scanClick]).dash.orderStatus = none :=
  (handleScan_clears_display initDash).2.2.2.2 [UiEvent.scanClick] (by decide)

/-- Numeric severity of a risk level, LOW < MEDIUM < CRITICAL. -/
def RiskLevel.sev : RiskLevel → Nat
  | .LOW => 0
  | .MEDIUM => 1
  | .CRITICAL => 2

/-- The more severe of two risk levels. -/
def RiskLevel.maxSev (a b : RiskLevel) : RiskLevel :=
  if a.sev ≤ b.sev then b else a

/-- Modelled from the spec: one InvestigationFinding per Investigation Loop
Agent run — {dimension, risk_level, evidence_digest, iterations_used}.  The
backend agents are absent from the repository snapshot. -/
structure InvestigationFinding where
  dimension : String
  risk_level : RiskLevel
  evidence_digest : String
  iterations_used : Nat
deriving DecidableEq, Repr

/-- Modelled from the spec: the Supervisor merge rule — aggregate risk_level
is the maximum severity among findings that completed. -/
def mergeRiskLevel (fs : List InvestigationFinding) : RiskLevel :=
  fs.foldr (fun f acc => RiskLevel.maxSev f.risk_level acc) .LOW

/-- Modelled from the spec: the aggregate RiskReport the Supervisor owns —
{region, risk_level, affected_parts, summary, timestamp}. -/
structure RiskReport where
  region : String
  risk_level : RiskLevel
  affected_parts : List String
  summary : String
  timestamp : Nat
deriving DecidableEq, Repr

/-- Failure of a scan: all risk dimensions timed out. -/
inductive ScanFailure
  | SCAN_INCONCLUSIVE
deriving DecidableEq, Repr

/-- Modelled from the spec: `scan(region) -> RiskReport`.  The Supervisor is
absent from the repository snapshot; per the spec it waits for each
dimension to finish or time out (a timed-out dimension is a `none` outcome),
fails with SCAN_INCONCLUSIVE when every dimension timed out, and otherwise
merges the completed findings: risk_level is the maximum severity among
them, the summary combines their evidence digests.  The spec does not say
how affected_parts is derived, so it is left empty here. -/
def scan (region : String) (timestamp : Nat)
    (outcomes : List (Option InvestigationFinding)) :
    Except ScanFailure RiskReport :=
  if (outcomes.filterMap id).isEmpty then .error .SCAN_INCONCLUSIVE
  else .ok
    { region := region
    , risk_level := mergeRiskLevel (outcomes.filterMap id)
    , affected_parts := []
    , summary := String.intercalate "; "
        ((outcomes.filterMap id).map (fun f => f.evidence_digest))
    , timestamp := timestamp }

theorem maxSev_sev (a b : RiskLevel) :
    (RiskLevel.maxSev a b).sev = Nat.max a.sev b.sev := by
  rw [RiskLevel.maxSev]
  by_cases h : a.sev ≤ b.sev
  · simp [h, Nat.max_eq_right h]
  · have h2 : b.sev ≤ a.sev := Nat.le_of_lt (Nat.lt_of_not_le h)
    simp [h, Nat.max_eq_left h2]

theorem maxSev_eq_or (a b : RiskLevel) :
    RiskLevel.maxSev a b = a ∨ RiskLevel.maxSev a b = b := by
  rw [RiskLevel.maxSev]
  by_cases h : a.sev ≤ b.sev <;> simp [h]

theorem sev_zero_eq_low (a : RiskLevel) (h : a.sev ≤ 0) : a = .LOW := by
  cases a
  · rfl
  · simp [RiskLevel.sev] at h
  · simp [RiskLevel.sev] at h

theorem mergeRiskLevel_isUB (fs : List InvestigationFinding) :
    ∀ f ∈ fs, f.risk_level.sev ≤ (mergeRiskLevel fs).sev := by
  induction fs with
  | nil =>
      intro f hf
      exact absurd hf (List.not_mem_nil f)
  | cons g gs ih =>
      intro f hf
      rw [mergeRiskLevel, List.foldr_cons]
      rw [show List.foldr (fun f acc => RiskLevel.maxSev f.risk_level acc) RiskLevel.LOW gs
            = mergeRiskLevel gs from rfl]
      rw [maxSev_sev]
      rcases List.mem_cons.mp hf with hfg | hfgs
      · subst hfg
        exact Nat.le_max_left _ _
      · exact Nat.le_trans (ih f hfgs) (Nat.le_max_right _ _)

theorem mergeRiskLevel_attained (fs : List InvestigationFinding) :
    mergeRiskLevel fs = .LOW ∨ ∃ f ∈ fs, f.risk_level = mergeRiskLevel fs := by
  induction fs with
  | nil => exact Or.inl rfl
  | cons g gs ih =>
      have hstep : mergeRiskLevel (g :: gs)
          = RiskLevel.maxSev g.risk_level (mergeRiskLevel gs) := rfl
      rcases maxSev_eq_or g.risk_level (mergeRiskLevel gs) with h | h
      · refine Or.inr ⟨g, List.mem_cons_self g gs, ?_⟩
        rw [hstep, h]
      · rcases ih with hlow | ⟨f, hfmem, hf⟩
        · rw [hstep, h, hlow]
          exact Or.inl rfl
        · refine Or.inr ⟨f, List.mem_cons_of_mem g hfmem, ?_⟩
          rw [hstep, h, hf]

/-- C4: if at least one risk-dimension investigation completes, `scan`
returns a RiskReport whose risk_level is the maximum severity among the
completed findings: it bounds every completed finding's severity from above
and is attained by one of them; timed-out dimensions are excluded because
only completed findings enter the merge. -/
theorem scan_merge_rule (region : String) (ts : Nat)
    (outcomes : List (Option InvestigationFinding))
    (f0 : InvestigationFinding) (h0 : some f0 ∈ outcomes) :
    ∃ rep : RiskReport,
      scan region ts outcomes = .ok rep
      ∧ rep.risk_level = mergeRiskLevel (outcomes.filterMap id)
      ∧ (∀ f ∈ outcomes.filterMap id, f.risk_level.sev ≤ rep.risk_level.sev)
      ∧ (∃ f ∈ outcomes.filterMap id, f.risk_level = rep.risk_level) := by
  have hmem : f0 ∈ outcomes.filterMap id := by
    rw [List.mem_filterMap]
    exact ⟨some f0, h0, rfl⟩
  have hne : (outcomes.filterMap id).isEmpty = false := by
    cases hemp : (outcomes.filterMap id)
    · rw [hemp] at hmem
      exact absurd hmem (List.not_mem_nil f0)
    · rfl
  refine ⟨{ region := region
          , risk_level := mergeRiskLevel (outcomes.filterMap id)
          , affected_parts := []
          , summary := String.intercalate "; "
              ((outcomes.filterMap id).map (fun f => f.evidence_digest))
          , timestamp := ts }, ?_, rfl, ?_, ?_⟩
  · rw [scan]
    simp only [hne, Bool.false_eq_true, if_false]
  · exact mergeRiskLevel_isUB (outcomes.filterMap id)
  · rcases mergeRiskLevel_attained (outcomes.filterMap id) with hlow | hatt
    · refine ⟨f0, hmem, ?_⟩
      have hub := mergeRiskLevel_isUB (outcomes.filterMap id) f0 hmem
      rw [hlow] at hub ⊢
      exact sev_zero_eq_low f0.risk_level hub
    · exact hatt

/-- A concrete scan outcome list: a completed CRITICAL political finding
and a timed-out second dimension. -/
def sampleOutcomes : List (Option InvestigationFinding) :=
  [some { dimension := "POLITICAL", risk_level := .CRITICAL
        , evidence_digest := "unrest", iterations_used := 2 }, none]

/-- C4 witness: a Taiwan scan with a completed CRITICAL political finding
and a timed-out weather dimension. -/
theorem scan_merge_rule_witness :
    ∃ rep : RiskReport,
      scan "Taiwan" 0 sampleOutcomes = .ok rep
      ∧ rep.risk_level = mergeRiskLevel (sampleOutcomes.filterMap id)
      ∧ (∀ f ∈ sampleOutcomes.filterMap id, f.risk_level.sev ≤ rep.risk_level.sev)
      ∧ (∃ f ∈ sampleOutcomes.filterMap id, f.risk_level = rep.risk_level) :=
  scan_merge_rule "Taiwan" 0 sampleOutcomes
    { dimension := "POLITICAL", risk_level := .CRITICAL
    , evidence_digest := "unrest", iterations_used := 2 }
    (by simp [sampleOutcomes])

/-- Resolution states of an ApprovalRequest. -/
inductive Resolution
  | PENDING
  | APPROVED
  | REJECTED
deriving DecidableEq, Repr

/-- Status values of an Order. -/
inductive OrderStatus
  | PLACED
  | CONFIRMED
  | FAILED
deriving DecidableEq, Repr

/-- Modelled from the spec: the order draft carried by an ApprovalRequest;
total_cost is in the canonical currency. -/
structure OrderDraft where
  supplier_id : String
  part_id : String
  quantity : Nat
  total_cost : Nat
deriving DecidableEq, Repr

/-- Modelled from the spec: ApprovalRequest —
{order_draft, reason, requested_at, resolution}. -/
structure ApprovalRequest where
  order_draft : OrderDraft
  reason : String
  requested_at : Nat
  resolution : Resolution
deriving DecidableEq, Repr

/-- Modelled from the spec: Order —
{order_id, supplier_id, part_id, quantity, total_cost, status}. -/
structure Order where
  order_id : Nat
  supplier_id : String
  part_id : String
  quantity : Nat
  total_cost : Nat
  status : OrderStatus
deriving DecidableEq, Repr

/-- Phases of the Procurement Agent's sequential workflow. -/
inductive WFPhase
  | CHECK_MEMORY
  | REQUEST_QUOTE
  | EVALUATE
  | AWAIT_APPROVAL
  | PLACE_ORDER
  | UPDATE_MEMORY
  | DONE
  | FAILED (reason : String)
deriving DecidableEq, Repr

/-- Modelled from the spec: a Procurement Agent workflow instance — its
current phase, the draft under negotiation, its ApprovalRequest if one was
created, and its Order if one was placed.  The backend Procurement Agent is
absent from the repository snapshot. -/
structure WFInstance where
  phase : WFPhase
  draft : Option OrderDraft
  approval : Option ApprovalRequest
  order : Option Order
deriving DecidableEq, Repr

/-- The compliance threshold in canonical dollars: pause above $5,000. -/
def approvalThreshold : Nat := 5000

/-- Reason recorded on an ApprovalRequest. -/
def approvalReason : String := "total_cost at or above approval threshold"

/-- A fresh workflow instance. -/
def initWF : WFInstance :=
  { phase := .CHECK_MEMORY, draft := none, approval := none, order := none }

/-- Errors a workflow step can surface. -/
inductive WFError
  | ALREADY_RESOLVED
  | NO_PENDING_APPROVAL
  | INVALID_PHASE
deriving DecidableEq, Repr

/-- Events driving a workflow instance: memory checked, a negotiated quote
(none when every candidate is exhausted), the EVALUATE step, an external
resolve call, the supplier's terminal order outcome, memory updated. -/
inductive WFEvent
  | memoryChecked
  | quoteResult (draft : Option OrderDraft)
  | evaluate (now : Nat)
  | resolve (approved : Bool)
  | orderPlaced (oid : Nat) (status : OrderStatus)
  | memoryUpdated
deriving DecidableEq, Repr

/-- Modelled from the spec: `POST /approvals/{id}/resolve {decision}` — the
first resolution moves PENDING to APPROVED (resume to PLACE_ORDER) or
REJECTED (FAILED with reason APPROVAL_DENIED); any later call fails with
ALREADY_RESOLVED and changes nothing. -/
def resolveStep (w : WFInstance) (approved : Bool) : WFInstance × Option WFError :=
  match w.approval with
  | none => (w, some .NO_PENDING_APPROVAL)
  | some a =>
      match a.resolution with
      | .PENDING =>
          if approved then
            ({ w with phase := .PLACE_ORDER
                    , approval := some { a with resolution := .APPROVED } }, none)
          else
            ({ w with phase := .FAILED "APPROVAL_DENIED"
                    , approval := some { a with resolution := .REJECTED } }, none)
      | _ => (w, some .ALREADY_RESOLVED)

/-- Modelled from the spec: one step of the Procurement Agent workflow
CHECK_MEMORY → REQUEST_QUOTE → EVALUATE → (AUTO_APPROVE | AWAIT_APPROVAL) →
PLACE_ORDER → UPDATE_MEMORY → DONE, with FAILED absorbing.  Below the
threshold EVALUATE auto-approves with no suspension; at or above it creates
a PENDING ApprovalRequest and suspends. -/
def wfStep (w : WFInstance) : WFEvent → WFInstance × Option WFError
  | .memoryChecked =>
      if w.phase = .CHECK_MEMORY then ({ w with phase := .REQUEST_QUOTE }, none)
      else (w, some .INVALID_PHASE)
  | .quoteResult q =>
      if w.phase = .REQUEST_QUOTE then
        match q with
        | some d => ({ w with phase := .EVALUATE, draft := some d }, none)
        | none => ({ w with phase := .FAILED "NO_VIABLE_SUPPLIER" }, none)
      else (w, some .INVALID_PHASE)
  | .evaluate now =>
      if w.phase = .EVALUATE then
        match w.draft with
        | some d =>
            if d.total_cost < approvalThreshold then
              ({ w with phase := .PLACE_ORDER }, none)
            else
              ({ w with phase := .AWAIT_APPROVAL
                      , approval := some { order_draft := d, reason := approvalReason
                                         , requested_at := now
                                         , resolution := .PENDING } }, none)
        | none => (w, some .INVALID_PHASE)
      else (w, some .INVALID_PHASE)
  | .resolve approved => resolveStep w approved
  | .orderPlaced oid st =>
      if w.phase = .PLACE_ORDER then
        match w.draft with
        | some d =>
            ({ w with phase := .UPDATE_MEMORY
                    , order := some { order_id := oid, supplier_id := d.supplier_id
                                    , part_id := d.part_id, quantity := d.quantity
                                    , total_cost := d.total_cost, status := st } }, none)
        | none => (w, some .INVALID_PHASE)
      else (w, some .INVALID_PHASE)
  | .memoryUpdated =>
      if w.phase = .UPDATE_MEMORY then
        match w.order with
        | some o =>
            match o.status with
            | .CONFIRMED => ({ w with phase := .DONE }, none)
            | .FAILED => ({ w with phase := .FAILED "ORDER_FAILED" }, none)
            | .PLACED => (w, some .INVALID_PHASE)
        | none => (w, some .INVALID_PHASE)
      else (w, some .INVALID_PHASE)

/-- Run of a workflow instance over a list of events. -/
def wfRun (w : WFInstance) (evs : List WFEvent) : WFInstance :=
  evs.foldl (fun w e => (wfStep w e).1) w

/-- Suspension invariant: while an instance holds a PENDING ApprovalRequest
it sits in AWAIT_APPROVAL and has placed no order; and an order exists only
from UPDATE_MEMORY onwards. -/
def WFInv (w : WFInstance) : Prop :=
  (∀ a, w.approval = some a → a.resolution = .PENDING →
    w.phase = .AWAIT_APPROVAL ∧ w.order = none)
  ∧ (∀ o, w.order = some o →
    w.phase = .UPDATE_MEMORY ∨ w.phase = .DONE ∨ ∃ r, w.phase = .FAILED r)

theorem wfInv_step (w : WFInstance) (e : WFEvent) (hw : WFInv w) :
    WFInv (wfStep w e).1 := by
  obtain ⟨hA, hB⟩ := hw
  cases e with
  | memoryChecked =>
      by_cases hp : w.phase = .CHECK_MEMORY
      · constructor
        · intro a ha hpend
          simp only [wfStep, hp, if_true, if_pos] at ha
          have := (hA a ha hpend).1
          rw [hp] at this
          simp at this
        · intro o ho
          simp only [wfStep, hp, if_true, if_pos] at ho
          have := hB o ho
          rw [hp] at this
          simp at this
      · have heq : (wfStep w .memoryChecked).1 = w := by simp [wfStep, hp]
        rw [heq]
        exact ⟨hA, hB⟩
  | quoteResult q =>
      by_cases hp : w.phase = .REQUEST_QUOTE
      · cases q with
        | some d =>
            constructor
            · intro a ha hpend
              simp only [wfStep, hp, if_true, if_pos] at ha
              have := (hA a ha hpend).1
              rw [hp] at this
              simp at this
            · intro o ho
              simp only [wfStep, hp, if_true, if_pos] at ho
              have := hB o ho
              rw [hp] at this
              simp at this
        | none =>
            constructor
            · intro a ha hpend
              simp only [wfStep, hp, if_true, if_pos] at ha
              have := (hA a ha hpend).1
              rw [hp] at this
              simp at this
            · intro o ho
              simp only [wfStep, hp, if_true, if_pos] at ho
              have := hB o ho
              rw [hp] at this
              simp at this
      · have heq : (wfStep w (.quoteResult q)).1 = w := by simp [wfStep, hp]
        rw [heq]
        exact ⟨hA, hB⟩
  | evaluate now =>
      by_cases hp : w.phase = .EVALUATE
      · cases hd : w.draft with
        | some d =>
            have hord : w.order = none := by
              cases ho : w.order with
              | none => rfl
              | some o =>
                  have := hB o ho
                  rw [hp] at this
                  simp at this
            by_cases hc : d.total_cost < approvalThreshold
            · constructor
              · intro a ha hpend
                simp only [wfStep, hp, hd, hc, if_true, if_pos] at ha
                have := (hA a ha hpend).1
                rw [hp] at this
                simp at this
              · intro o ho
                simp only [wfStep, hp, hd, hc, if_true, if_pos] at ho
                rw [hord] at ho
                exact absurd ho (by simp)
            · constructor
              · intro a ha hpend
                simp only [wfStep, hp, hd, hc, if_true, if_pos, if_neg, if_false] at ha
                refine ⟨by simp [wfStep, hp, hd, hc], ?_⟩
                simp [wfStep, hp, hd, hc, hord]
              · intro o ho
                simp only [wfStep, hp, hd, hc, if_true, if_pos, if_neg, if_false] at ho
                rw [hord] at ho
                exact absurd ho (by simp)
        | none =>
            have heq : (wfStep w (.evaluate now)).1 = w := by simp [wfStep, hp, hd]
            rw [heq]
            exact ⟨hA, hB⟩
      · have heq : (wfStep w (.evaluate now)).1 = w := by simp [wfStep, hp]
        rw [heq]
        exact ⟨hA, hB⟩
  | resolve approved =>
      cases hwa : w.approval with
      | none =>
          have heq : (wfStep w (.resolve approved)).1 = w := by
            simp [wfStep, resolveStep, hwa]
          rw [heq]
          exact ⟨hA, hB⟩
      | some a =>
          cases hres : a.resolution with
          | PENDING =>
              have hord : w.order = none := (hA a hwa hres).2
              cases approved with
              | true =>
                  constructor
                  · intro a2 ha2 hpend2
                    simp only [wfStep, resolveStep, hwa, hres, if_true, if_pos] at ha2
                    have ha3 := Option.some.inj ha2
                    rw [← ha3] at hpend2
                    simp at hpend2
                  · intro o ho
                    simp only [wfStep, resolveStep, hwa, hres, if_true, if_pos] at ho
                    rw [hord] at ho
                    exact absurd ho (by simp)
              | false =>
                  constructor
                  · intro a2 ha2 hpend2
                    simp only [wfStep, resolveStep, hwa, hres, Bool.false_eq_true,
                      if_false, if_neg] at ha2
                    have ha3 := Option.some.inj ha2
                    rw [← ha3] at hpend2
                    simp at hpend2
                  · intro o ho
                    simp only [wfStep, resolveStep, hwa, hres, Bool.false_eq_true,
                      if_false, if_neg] at ho
                    rw [hord] at ho
                    exact absurd ho (by simp)
          | APPROVED =>
              have heq : (wfStep w (.resolve approved)).1 = w := by
                simp [wfStep, resolveStep, hwa, hres]
              rw [heq]
              exact ⟨hA, hB⟩
          | REJECTED =>
              have heq : (wfStep w (.resolve approved)).1 = w := by
                simp [wfStep, resolveStep, hwa, hres]
              rw [heq]
              exact ⟨hA, hB⟩
  | orderPlaced oid st =>
      by_cases hp : w.phase = .PLACE_ORDER
      · cases hd : w.draft with
        | some d =>
            constructor
            · intro a ha hpend
              simp only [wfStep, hp, hd, if_true, if_pos] at ha
              have := (hA a ha hpend).1
              rw [hp] at this
              simp at this
            · intro o ho
              simp [wfStep, hp, hd]
        | none =>
            have heq : (wfStep w (.orderPlaced oid st)).1 = w := by
              simp [wfStep, hp, hd]
            rw [heq]
            exact ⟨hA, hB⟩
      · have heq : (wfStep w (.orderPlaced oid st)).1 = w := by simp [wfStep, hp]
        rw [heq]
        exact ⟨hA, hB⟩
  | memoryUpdated =>
      by_cases hp : w.phase = .UPDATE_MEMORY
      · cases ho : w.order with
        | some o =>
            cases hst : o.status with
            | CONFIRMED =>
                constructor
                · intro a ha hpend
                  simp only [wfStep, hp, ho, hst, if_true, if_pos] at ha
                  have := (hA a ha hpend).1
                  rw [hp] at this
                  simp at this
                · intro o2 ho2
                  simp [wfStep, hp, ho, hst]
            | FAILED =>
                constructor
                · intro a ha hpend
                  simp only [wfStep, hp, ho, hst, if_true, if_pos] at ha
                  have := (hA a ha hpend).1
                  rw [hp] at this
                  simp at this
                · intro o2 ho2
                  simp [wfStep, hp, ho, hst]
            | PLACED =>
                have heq : (wfStep w .memoryUpdated).1 = w := by
                  simp [wfStep, hp, ho, hst]
                rw [heq]
                exact ⟨hA, hB⟩
        | none =>
            have heq : (wfStep w .memoryUpdated).1 = w := by simp [wfStep, hp, ho]
            rw [heq]
            exact ⟨hA, hB⟩
      · have heq : (wfStep w .memoryUpdated).1 = w := by simp [wfStep, hp]
        rw [heq]
        exact ⟨hA, hB⟩

theorem wfInv_run (w : WFInstance) (evs : List WFEvent) (hw : WFInv w) :
    WFInv (wfRun w evs) := by
  induction evs generalizing w with
  | nil => exact hw
  | cons e rest ih =>
      exact ih (wfStep w e).1 (wfInv_step w e hw)

/-- C3: for a purchase whose total_cost is at or above the threshold, the
EVALUATE step creates an ApprovalRequest in PENDING and suspends in
AWAIT_APPROVAL; along every event sequence from there, while the approval is
still PENDING the instance has placed no order (so no Order is CONFIRMED
before resolution); resolving REJECTED yields FAILED with reason
APPROVAL_DENIED, and resolving APPROVED advances to PLACE_ORDER. -/
theorem approval_gate (w : WFInstance) (d : OrderDraft) (now : Nat)
    (hphase : w.phase = .EVALUATE) (hdraft : w.draft = some d)
    (hord : w.order = none)
    (hcost : approvalThreshold ≤ d.total_cost) :
    (wfStep w (.evaluate now)).1.phase = .AWAIT_APPROVAL
    ∧ (wfStep w (.evaluate now)).1.approval
        = some { order_draft := d, reason := approvalReason
               , requested_at := now, resolution := .PENDING }
    ∧ (∀ (evs : List WFEvent) (a2 : ApprovalRequest),
        (wfRun (wfStep w (.evaluate now)).1 evs).approval = some a2 →
        a2.resolution = .PENDING →
        (wfRun (wfStep w (.evaluate now)).1 evs).order = none)
    ∧ (wfStep (wfStep w (.evaluate now)).1 (.resolve false)).1.phase
        = .FAILED "APPROVAL_DENIED"
    ∧ (wfStep (wfStep w (.evaluate now)).1 (.resolve true)).1.phase
        = .PLACE_ORDER := by
  have hc : ¬ d.total_cost < approvalThreshold := Nat.not_lt.mpr hcost
  have hw1 : (wfStep w (.evaluate now)).1
      = { w with phase := .AWAIT_APPROVAL
               , approval := some { order_draft := d, reason := approvalReason
                                  , requested_at := now
                                  , resolution := .PENDING } } := by
    simp [wfStep, hphase, hdraft, hc]
  refine ⟨by rw [hw1], by rw [hw1], ?_, ?_, ?_⟩
  · intro evs a2 ha2 hpend2
    have hinv : WFInv (wfRun (wfStep w (.evaluate now)).1 evs) := by
      apply wfInv_run
      rw [hw1]
      constructor
      · intro a ha hpend
        exact ⟨rfl, hord⟩
      · intro o ho
        simp only at ho
        rw [hord] at ho
        exact absurd ho (by simp)
    exact (hinv.1 a2 ha2 hpend2).2
  · rw [hw1]
    simp [wfStep, resolveStep]
  · rw [hw1]
    simp [wfStep, resolveStep]

/-- A draft matching the spec's concrete scenario: 50 Logic-Core-CPUs at
$100 each, total $5,000 — exactly at the threshold. -/
def sampleDraft : OrderDraft :=
  { supplier_id := "backup-1", part_id := "Logic-Core-CPU"
  , quantity := 50, total_cost := 5000 }

/-- A workflow instance sitting in EVALUATE with the sample draft. -/
def sampleEvalWF : WFInstance :=
  { phase := .EVALUATE, draft := some sampleDraft, approval := none, order := none }

/-- C3 witness: the sample $5,000 purchase suspends for approval, and both
resolutions behave as stated. -/
theorem approval_gate_witness :
    (wfStep sampleEvalWF (.evaluate 7)).1.phase = .AWAIT_APPROVAL
    ∧ (wfStep sampleEvalWF (.evaluate 7)).1.approval
        = some { order_draft := sampleDraft, reason := approvalReason
               , requested_at := 7, resolution := .PENDING }
    ∧ (∀ (evs : List WFEvent) (a2 : ApprovalRequest),
        (wfRun (wfStep sampleEvalWF (.evaluate 7)).1 evs).approval = some a2 →
        a2.resolution = .PENDING →
        (wfRun (wfStep sampleEvalWF (.evaluate 7)).1 evs).order = none)
    ∧ (wfStep (wfStep sampleEvalWF (.evaluate 7)).1 (.resolve false)).1.phase
        = .FAILED "APPROVAL_DENIED"
    ∧ (wfStep (wfStep sampleEvalWF (.evaluate 7)).1 (.resolve true)).1.phase
        = .PLACE_ORDER :=
  approval_gate sampleEvalWF sampleDraft 7 rfl rfl rfl (by decide)

/-- C5: the first resolve call on a PENDING ApprovalRequest succeeds and
moves its resolution to APPROVED or REJECTED per the decision; every
subsequent resolve call on the same request fails with ALREADY_RESOLVED and
leaves the whole workflow instance unchanged. -/
theorem resolve_idempotent (w : WFInstance) (a : ApprovalRequest) (approved : Bool)
    (happ : w.approval = some a) (hpend : a.resolution = .PENDING) :
    (wfStep w (.resolve approved)).2 = none
    ∧ (wfStep w (.resolve approved)).1.approval
        = some { a with resolution := if approved then .APPROVED else .REJECTED }
    ∧ (∀ approved2 : Bool,
        wfStep (wfStep w (.resolve approved)).1 (.resolve approved2)
          = ((wfStep w (.resolve approved)).1, some .ALREADY_RESOLVED)) := by
  cases approved with
  | true =>
      refine ⟨?_, ?_, ?_⟩
      · simp [wfStep, resolveStep, happ, hpend]
      · simp [wfStep, resolveStep, happ, hpend]
      · intro approved2
        simp [wfStep, resolveStep, happ, hpend]
  | false =>
      refine ⟨?_, ?_, ?_⟩
      · simp [wfStep, resolveStep, happ, hpend]
      · simp [wfStep, resolveStep, happ, hpend]
      · intro approved2
        simp [wfStep, resolveStep, happ, hpend]

/-- The PENDING ApprovalRequest created for the sample draft. -/
def samplePending : ApprovalRequest :=
  { order_draft := sampleDraft, reason := approvalReason
  , requested_at := 7, resolution := .PENDING }

/-- A workflow instance suspended on the sample approval. -/
def sampleAwaitWF : WFInstance :=
  { phase := .AWAIT_APPROVAL, draft := some sampleDraft
  , approval := some samplePending, order := none }

/-- C5 witness: resolving the sample approval once succeeds; any second
resolve fails with ALREADY_RESOLVED and changes nothing. -/
theorem resolve_idempotent_witness :
    (wfStep sampleAwaitWF (.resolve true)).2 = none
    ∧ (wfStep sampleAwaitWF (.resolve true)).1.approval
        = some { samplePending with
                 resolution := if true then .APPROVED else .REJECTED }
    ∧ (∀ approved2 : Bool,
        wfStep (wfStep sampleAwaitWF (.resolve true)).1 (.resolve approved2)
          = ((wfStep sampleAwaitWF (.resolve true)).1, some .ALREADY_RESOLVED)) :=
  resolve_idempotent sampleAwaitWF samplePending true rfl rfl

end Sentinell
